import Mathlib

/-!
# Verification of the `super_process` process-invocation library

A shallow embedding, in Lean 4, of the core of `src/src/lib.rs`:

* the command data model (`Command`, argv unshifting, conversion
  to a native invocation descriptor),
* exit-status classification (`analyze_exit_status` over the fixed
  `SIGNAL_NAMES` table and `TERM_SIGNALS` set),
* the synchronous output extraction and UTF-8 decoding
  (`RawOutput.extract` / `RawOutput.decode`, with a concrete model of
  Rust's `str::from_utf8` byte-level validation),
* the streaming two-source line merge (`merge_streams` / the drain loop),
  modelled with an explicit readiness schedule standing for the
  asynchronous scheduler, and
* the shell-script layer (`unshift_shell_script`, `setup_command`,
  `extract_env_bindings`).

Rust machine integers `i32` are modelled as `Int`; byte buffers
(`Vec<u8>`) as `List Nat` with each byte below 256 where it matters;
`OsString` and `String` as Lean `String` (or `List Char` for the
line-level parsing, where a string is just its character list);
`IndexMap` as an association list with IndexMap's insert semantics
(update-in-place keeps the original position, a fresh key is appended).
A Rust `panic!` / `unreachable!` / `.unwrap()` failure is modelled by
`Option`: `none` is a panic, `some` is a normally returned value.
-/

namespace SuperProcess

/-! ## Command data model (`mod fs`, `mod exe`) -/

/-- Rust `exe::Command`: a request to execute a subprocess.  `exe` is the
executable path (`Exe(File(PathBuf))` collapses to the path string),
`wd` the optional working directory, `argv` the argument vector and
`env` the ordered environment overlay (`EnvModifications`). -/
structure Command where
  exe : String
  wd : Option String
  argv : List String
  env : List (String × String)
  deriving Repr, DecidableEq

/-- Rust `Exe::is_empty`: the executable path is the empty string. -/
def exeIsEmpty (exe : String) : Bool := exe = ""

/-- Rust `Argv::unshift`: prepend one token to the front of the argument
vector (`ret = vec![leftmost_arg]; ret.extend(argv); *argv = ret`). -/
def Argv.unshift (argv : List String) (leftmost_arg : String) : List String :=
  leftmost_arg :: argv

/-- The native invocation descriptor built by `Command::command` from an
`async_process::Command`: program path, optional working directory, the
argument list passed via `.args(..)`, and the sequence of individual
`.env(var, val)` override operations applied on top of the inherited
environment. -/
structure NativeCommand where
  program : String
  cwd : Option String
  args : List String
  envSets : List (String × String)
  deriving Repr, DecidableEq

/-- Rust `Command::command`: panics (`unreachable!`, modelled as `none`) when
the executable is empty; otherwise builds the native descriptor,
setting the working directory when present, passing the argv, and
applying each environment-overlay entry individually. -/
def Command.command (self : Command) : Option NativeCommand :=
  if exeIsEmpty self.exe then
    none
  else
    some { program := self.exe, cwd := self.wd, args := self.argv, envSets := self.env }

/-- Rust `Command::unshift_new_exe`: panics (`none`) when the new executable
is empty; otherwise the old executable, when non-empty, is unshifted
onto the argv, and the executable is replaced by the new one. -/
def Command.unshift_new_exe (self : Command) (new_exe : String) : Option Command :=
  if exeIsEmpty new_exe then
    none
  else
    let argv := if exeIsEmpty self.exe then self.argv else Argv.unshift self.argv self.exe
    some { self with exe := new_exe, argv := argv }

/-- Rust `Command::unshift_shell_script`: unshift the script path, then
unshift the `sh` interpreter. -/
def Command.unshift_shell_script (self : Command) (script_path : String) : Option Command :=
  match self.unshift_new_exe script_path with
  | none => none
  | some c => c.unshift_new_exe "sh"

/-! ## Exit-status classification -/

/-- A raw Unix exit status as surfaced by `std::process::ExitStatus`:
either a numeric exit code (`status.code() = Some code`) or a
terminating signal (`status.signal() = Some sig`). -/
inductive ExitStatus where
  | exited (code : Int)
  | signaled (sig : Int)
  deriving Repr, DecidableEq

/-- Rust `exe::CommandError` (the variants reachable in this development;
`Io` carries its message, `Utf8` marks a `str::Utf8Error`). -/
inductive CommandError where
  | NonZeroExit (code : Int)
  | ProcessTerminated (sig : Int) (name : String)
  | ProcessKilled (sig : Int) (name : String)
  | Io (msg : String)
  | Utf8
  deriving Repr, DecidableEq

/-- The `SIGNAL_NAMES` static: the `signal_pairs!` list of the source,
with each signal's numeric value on Linux (the platform the
`signal_hook::consts::signal` constants resolve to). -/
def SIGNAL_NAMES : List (Int × String) :=
  [(6, "SIGABRT"), (14, "SIGALRM"), (7, "SIGBUS"), (17, "SIGCHLD"),
   (18, "SIGCONT"), (8, "SIGFPE"), (1, "SIGHUP"), (4, "SIGILL"),
   (2, "SIGINT"), (29, "SIGIO"), (9, "SIGKILL"), (13, "SIGPIPE"),
   (27, "SIGPROF"), (3, "SIGQUIT"), (11, "SIGSEGV"), (19, "SIGSTOP"),
   (31, "SIGSYS"), (15, "SIGTERM"), (5, "SIGTRAP"), (20, "SIGTSTP"),
   (21, "SIGTTIN"), (22, "SIGTTOU"), (23, "SIGURG"), (10, "SIGUSR1"),
   (12, "SIGUSR2"), (26, "SIGVTALRM"), (28, "SIGWINCH"), (24, "SIGXCPU"),
   (25, "SIGXFSZ")]

/-- The `signal_hook::consts::TERM_SIGNALS` constant: `[SIGTERM, SIGQUIT, SIGINT,
SIGHUP]`, numerically `[15, 3, 2, 1]` on Linux. -/
def TERM_SIGNALS : List Int := [15, 3, 2, 1]

/-- Rust `CommandError::analyze_exit_status`.  A `code` of 0 is success, any
other code is `NonZeroExit`; a signal is looked up in `TERM_SIGNALS`
to pick terminated vs. killed, and the `SIGNAL_NAMES.get(..).unwrap()`
of the source is modelled faithfully: a signal absent from
`SIGNAL_NAMES` makes the unwrap panic (`none`).  (The third source
branch, a status with neither code nor signal, cannot arise for the
two-constructor `ExitStatus`.) -/
def analyze_exit_status : ExitStatus → Option (Except CommandError Unit)
  | .exited code =>
    if code = 0 then some (.ok ()) else some (.error (.NonZeroExit code))
  | .signaled sig =>
    if sig ∈ TERM_SIGNALS then
      match SIGNAL_NAMES.lookup sig with
      | some name => some (.error (.ProcessTerminated sig name))
      | none => none
    else
      match SIGNAL_NAMES.lookup sig with
      | some name => some (.error (.ProcessKilled sig name))
      | none => none

/-- Rust `exe::CommandErrorWrapper`: a `CommandError` together with the
offending command and a context string. -/
structure CommandErrorWrapper where
  command : Command
  context : String
  error : CommandError
  deriving Repr, DecidableEq

/-- Rust `CommandError::command_with_context`. -/
def CommandError.command_with_context (self : CommandError) (command : Command)
    (context : String) : CommandErrorWrapper :=
  { command := command, context := context, error := self }

/-! ## A model of Rust's `str::from_utf8`

Byte buffers are `List Nat`.  `utf8EncodeChar` is the standard UTF-8
encoding of a Unicode scalar value; `utf8DecodeChar` performs exactly
the validation `core::str::from_utf8` performs (continuation bytes in
`0x80..=0xBF`, the first byte of a 2-byte sequence in `0xC2..=0xDF`,
the second-byte ranges narrowed for `0xE0`/`0xED`/`0xF0`/`0xF4` to
reject overlong forms, surrogates and values above `0x10FFFF`). -/

/-- UTF-8 encoding of a Unicode scalar value (as a `Nat`). -/
def utf8EncodeNat (n : Nat) : List Nat :=
  if n < 0x80 then [n]
  else if n < 0x800 then [0xC0 + n / 64, 0x80 + n % 64]
  else if n < 0x10000 then [0xE0 + n / 4096, 0x80 + n / 64 % 64, 0x80 + n % 64]
  else [0xF0 + n / 262144, 0x80 + n / 4096 % 64, 0x80 + n / 64 % 64, 0x80 + n % 64]

/-- UTF-8 encoding of one character. -/
def utf8EncodeChar (c : Char) : List Nat := utf8EncodeNat c.toNat

/-- UTF-8 encoding of a string (a string is its character list). -/
def utf8Encode (s : List Char) : List Nat := (s.map utf8EncodeChar).flatten

/-- Lower bound for the second byte of a multi-byte sequence, given its
first byte (the table of `core::str` validation). -/
def utf8SecondLo (b0 : Nat) : Nat :=
  if b0 = 0xE0 then 0xA0 else if b0 = 0xF0 then 0x90 else 0x80

/-- Upper bound for the second byte of a multi-byte sequence, given its
first byte. -/
def utf8SecondHi (b0 : Nat) : Nat :=
  if b0 = 0xED then 0x9F else if b0 = 0xF4 then 0x8F else 0xBF

/-- Decode the tail of a 2-byte sequence. -/
def utf8Decode2 (b0 : Nat) : List Nat → Option (Nat × List Nat)
  | b1 :: rest =>
    if 0x80 ≤ b1 ∧ b1 ≤ 0xBF then
      some ((b0 - 0xC0) * 64 + (b1 - 0x80), rest)
    else none
  | [] => none

/-- Decode the tail of a 3-byte sequence. -/
def utf8Decode3 (b0 : Nat) : List Nat → Option (Nat × List Nat)
  | b1 :: b2 :: rest =>
    if utf8SecondLo b0 ≤ b1 ∧ b1 ≤ utf8SecondHi b0 ∧ 0x80 ≤ b2 ∧ b2 ≤ 0xBF then
      some ((b0 - 0xE0) * 4096 + (b1 - 0x80) * 64 + (b2 - 0x80), rest)
    else none
  | _ => none

/-- Decode the tail of a 4-byte sequence. -/
def utf8Decode4 (b0 : Nat) : List Nat → Option (Nat × List Nat)
  | b1 :: b2 :: b3 :: rest =>
    if utf8SecondLo b0 ≤ b1 ∧ b1 ≤ utf8SecondHi b0 ∧
        0x80 ≤ b2 ∧ b2 ≤ 0xBF ∧ 0x80 ≤ b3 ∧ b3 ≤ 0xBF then
      some ((b0 - 0xF0) * 262144 + (b1 - 0x80) * 4096 + (b2 - 0x80) * 64 + (b3 - 0x80), rest)
    else none
  | _ => none

/-- Decode one UTF-8 scalar value from the front of a byte list,
returning the value and the remaining bytes, or `none` on invalid
input — exactly the validation of `core::str::from_utf8`. -/
def utf8DecodeChar : List Nat → Option (Nat × List Nat)
  | [] => none
  | b0 :: rest =>
    if b0 < 0x80 then some (b0, rest)
    else if b0 < 0xC2 then none
    else if b0 ≤ 0xDF then utf8Decode2 b0 rest
    else if b0 ≤ 0xEF then utf8Decode3 b0 rest
    else if b0 ≤ 0xF4 then utf8Decode4 b0 rest
    else none

/-- Fuelled decoding loop (each step consumes at least one byte, so
fuel equal to the buffer length always suffices). -/
def utf8DecodeAux : Nat → List Nat → Option (List Char)
  | _, [] => some []
  | 0, _ :: _ => none
  | fuel + 1, b :: bs =>
    match utf8DecodeChar (b :: bs) with
    | none => none
    | some (n, rest) => (utf8DecodeAux fuel rest).map (fun cs => Char.ofNat n :: cs)

/-- Rust `str::from_utf8`: decode a whole byte buffer, `none` on invalid
UTF-8. -/
def from_utf8 (bs : List Nat) : Option (List Char) := utf8DecodeAux bs.length bs

/-! ## Synchronous output extraction (`mod sync`) -/

/-- Rust `sync::RawOutput`: the complete captured byte buffers. -/
structure RawOutput where
  stdout : List Nat
  stderr : List Nat
  deriving Repr, DecidableEq

/-- Rust `sync::DecodedOutput`: the UTF-8-decoded counterpart (text as
character lists). -/
structure DecodedOutput where
  stdout : List Char
  stderr : List Char
  deriving Repr, DecidableEq

/-- Rust `std::process::Output`: exit status plus captured buffers. -/
structure ProcessOutput where
  status : ExitStatus
  stdout : List Nat
  stderr : List Nat
  deriving Repr, DecidableEq

/-- Rust `RawOutput::decode`: UTF-8-decode stdout, then stderr; the first
failure is wrapped (`Utf8` kind) with the command and a stage context
string.  The `{:?}` debug payloads of the source's context strings are
abbreviated to the fixed stage description. -/
def RawOutput.decode (self : RawOutput) (command : Command) :
    Except CommandErrorWrapper DecodedOutput :=
  match from_utf8 self.stdout with
  | none =>
    .error (CommandError.Utf8.command_with_context command "when decoding stdout")
  | some out =>
    match from_utf8 self.stderr with
    | none =>
      .error (CommandError.Utf8.command_with_context command "when decoding stderr")
    | some err => .ok { stdout := out, stderr := err }

/-- Rust `RawOutput::extract`: classify the exit status; on success return
the raw buffers; on a classification error, build the diagnostic
context string (whose content depends on whether the buffers decode as
UTF-8) and wrap the classifier's error with the original command.  A
classifier panic propagates (`none`). -/
def RawOutput.extract (command : Command) (output : ProcessOutput) :
    Option (Except CommandErrorWrapper RawOutput) :=
  let raw : RawOutput := { stdout := output.stdout, stderr := output.stderr }
  match analyze_exit_status output.status with
  | none => none
  | some (.ok ()) => some (.ok raw)
  | some (.error e) =>
    let output_msg : String :=
      match raw.decode command with
      | .ok decoded =>
        "(utf-8 decoded) " ++ String.mk decoded.stdout ++ " " ++ String.mk decoded.stderr
      | .error _ => "(could not decode)"
    some (.error (e.command_with_context command
      ("when analyzing exit status for output " ++ output_msg)))

/-! ## Streaming merge (`mod stream`)

The asynchronous race of `future::or(err, out)` is modelled with an
explicit readiness oracle: at each iteration of the drain loop the
schedule records which side's pending `next()` future became ready
first (`errFirst`, `outFirst`), or that both were ready when polled
(`both`).  `future::or` polls the stderr side first, so the stderr
future wins whenever it is ready — including when it is ready at
end-of-stream, in which case the merged future resolves to `None` and
the drain loop stops. -/

/-- Rust `stream::StdioLine`: a line of stdout or stderr. -/
inductive StdioLine where
  | out (line : String)
  | err (line : String)
  deriving Repr, DecidableEq

/-- Which of the two racing `next()` futures is ready when polled. -/
inductive Race where
  | errFirst
  | outFirst
  | both
  deriving Repr, DecidableEq

/-- Rust `StdioLine::merge_streams`, one race: the pending streams are the
undelivered suffixes of the stdout and stderr line sequences.  The
stderr side is polled first, so it wins on `errFirst` and on `both`;
the winning side at end-of-stream resolves the merged future to `None`
(modelled as `none`), which terminates the caller's drain loop. -/
def merge_streams (outs errs : List String) :
    Race → Option (StdioLine × List String × List String)
  | .errFirst | .both =>
    match errs with
    | e :: rest => some (.err e, outs, rest)
    | [] => none
  | .outFirst =>
    match outs with
    | o :: rest => some (.out o, rest, errs)
    | [] => none

/-- The drain loop of `Streaming::exhaust_output_streams_and_wait`,
run under a readiness schedule.  Returns the delivered lines in order
and, when the loop terminated (`merge_streams` returned `None`),
`some` of the two undelivered suffixes; `none` means the schedule
ended while the loop was still pending. -/
def drain (outs errs : List String) :
    List Race → List StdioLine × Option (List String × List String)
  | [] => ([], none)
  | r :: rs =>
    match merge_streams outs errs r with
    | none => ([], some (outs, errs))
    | some (l, outs', errs') =>
      (l :: (drain outs' errs' rs).1, (drain outs' errs' rs).2)

/-- Rust `Streaming::exhaust_output_streams_and_wait`: run the drain loop;
once it terminates, wait on the child and classify its exit status.
The result is the delivered lines, the undelivered suffixes at
termination, and the classification of the final status (the per-line
callback is modelled as the pure collection of the delivered lines). -/
def exhaust_output_streams_and_wait (outs errs : List String) (sched : List Race)
    (status : ExitStatus) :
    Option (List StdioLine × (List String × List String) × Option (Except CommandError Unit)) :=
  match drain outs errs sched with
  | (ls, some leftover) => some (ls, leftover, analyze_exit_status status)
  | (_, none) => none

/-- The stdout texts among the delivered lines, in delivery order. -/
def outTexts (ls : List StdioLine) : List String :=
  ls.filterMap fun l => match l with | .out s => some s | .err _ => none

/-- The stderr texts among the delivered lines, in delivery order. -/
def errTexts (ls : List StdioLine) : List String :=
  ls.filterMap fun l => match l with | .err s => some s | .out _ => none

/-! ## Shell-script layer (`mod sh`) -/

/-- Rust `base::SetupError` (with `SetupErrorWrapper`'s context inlined into
the `Inner` constructor, since the wrapper is just a context string
plus the boxed inner error). -/
inductive SetupError where
  | Inner (context : String) (error : SetupError)
  | Io (msg : String)
  deriving Repr, DecidableEq

/-- Rust `sh::ShellScript`: a materialized script path. -/
structure ShellScript where
  script_path : String
  deriving Repr, DecidableEq

/-- Rust `sh::ShellScriptInvocation`: a script together with the base
command it wraps. -/
structure ShellScriptInvocation where
  script : ShellScript
  base : Command
  deriving Repr, DecidableEq

/-- Rust `ShellScriptInvocation::setup_command`: double-unshift the script
path and the `sh` interpreter onto the base command; the `Ok` is the
only constructed result (a panic inside the unshifts is `none`). -/
def ShellScriptInvocation.setup_command (self : ShellScriptInvocation) :
    Option (Except SetupError Command) :=
  (self.base.unshift_shell_script self.script.script_path).map Except.ok

/-- IndexMap-style insert on an association list: an existing key keeps
its position and gets the new value; a fresh key is appended at the
end. -/
def indexMapInsert (m : List (List Char × List Char)) (k v : List Char) :
    List (List Char × List Char) :=
  if m.any (fun p => p.1 = k) then
    m.map (fun p => if p.1 = k then (k, v) else p)
  else
    m ++ [(k, v)]

/-- The key part of an env-dump line: everything before the first `=`. -/
def envLineKey (line : List Char) : List Char := line.takeWhile (· ≠ '=')

/-- The value part of an env-dump line: everything after the first `=`. -/
def envLineValue (line : List Char) : List Char :=
  line.drop ((envLineKey line).length + 1)

/-- The per-line step of `EnvAfterScript::extract_env_bindings`: a line
containing `=` is split at the first occurrence and inserted; a line
with no `=` is skipped. -/
def extractEnvStep (env_map : List (List Char × List Char)) (line : List Char) :
    List (List Char × List Char) :=
  if '=' ∈ line then indexMapInsert env_map (envLineKey line) (envLineValue line)
  else env_map

/-- Rust `EnvAfterScript::extract_env_bindings`, at line granularity: fold
the per-line step over the stdout lines, starting from the empty
overlay.  (The upstream splitting of the stdout byte buffer into
lines, and the per-line UTF-8 decoding, are the `BufRead::lines`
collaborator.) -/
def extract_env_bindings (lines : List (List Char)) : List (List Char × List Char) :=
  lines.foldl extractEnvStep []

/-! ## Helper lemmas -/

/-- Any delivered prefix of a drain run takes its stdout texts from the
front of the stdout sequence and its stderr texts from the front of the
stderr sequence, in order: the merge never reorders lines within a
single stream. -/
theorem drain_take (rs : List Race) :
    ∀ outs errs : List String, ∃ k j,
      outTexts (drain outs errs rs).1 = outs.take k ∧
      errTexts (drain outs errs rs).1 = errs.take j := by
  induction rs with
  | nil => exact fun outs errs => ⟨0, 0, rfl, rfl⟩
  | cons r rs ih =>
    intro outs errs
    cases r with
    | errFirst =>
      cases errs with
      | nil => exact ⟨0, 0, rfl, rfl⟩
      | cons e erest =>
        obtain ⟨k, j, h1, h2⟩ := ih outs erest
        exact ⟨k, j + 1, by simp [drain, merge_streams, outTexts, *] at h1 ⊢ ; exact h1,
          by simp [drain, merge_streams, errTexts, *] at h2 ⊢ ; exact h2⟩
    | both =>
      cases errs with
      | nil => exact ⟨0, 0, rfl, rfl⟩
      | cons e erest =>
        obtain ⟨k, j, h1, h2⟩ := ih outs erest
        exact ⟨k, j + 1, by simp [drain, merge_streams, outTexts, *] at h1 ⊢ ; exact h1,
          by simp [drain, merge_streams, errTexts, *] at h2 ⊢ ; exact h2⟩
    | outFirst =>
      cases outs with
      | nil => exact ⟨0, 0, rfl, rfl⟩
      | cons o orest =>
        obtain ⟨k, j, h1, h2⟩ := ih orest errs
        exact ⟨k + 1, j, by simp [drain, merge_streams, outTexts, *] at h1 ⊢ ; exact h1,
          by simp [drain, merge_streams, errTexts, *] at h2 ⊢ ; exact h2⟩

/-! ## Claim theorems -/

/-- C1 (counterexample): exit classification is not total over every
signal number: signal 30 (`SIGPWR` on Linux) is absent from
`SIGNAL_NAMES`, so on the killed-by-signal branch the
`SIGNAL_NAMES.get(&signal).unwrap()` panics and no classification
value is returned. -/
theorem analyze_exit_status_not_total :
    analyze_exit_status (.signaled 30) = none := rfl

/-- C1 (amended): exit classification is deterministic and behaves as
specified on every status whose signal (if any) is named in
`SIGNAL_NAMES`: exit code 0 is success, every nonzero code `c` yields
`NonZeroExit c`, every signal in the termination set yields
`ProcessTerminated` with its name, and every other signal present in
the `SIGNAL_NAMES` table yields `ProcessKilled` with its name —
signals absent from the table instead make the name-lookup unwrap
panic. -/
theorem analyze_exit_status_classification :
    analyze_exit_status (.exited 0) = some (.ok ()) ∧
    (∀ c : Int, c ≠ 0 →
      analyze_exit_status (.exited c) = some (.error (.NonZeroExit c))) ∧
    (∀ s : Int, s ∈ TERM_SIGNALS →
      ∃ name, SIGNAL_NAMES.lookup s = some name ∧
        analyze_exit_status (.signaled s) = some (.error (.ProcessTerminated s name))) ∧
    (∀ s : Int, s ∉ TERM_SIGNALS → ∀ name, SIGNAL_NAMES.lookup s = some name →
      analyze_exit_status (.signaled s) = some (.error (.ProcessKilled s name))) := by
  refine ⟨rfl, ?_, ?_, ?_⟩
  · intro c hc
    simp [analyze_exit_status, hc]
  · intro s hs
    simp only [TERM_SIGNALS, List.mem_cons, List.not_mem_nil, or_false] at hs
    rcases hs with rfl | rfl | rfl | rfl
    · exact ⟨"SIGTERM", rfl, rfl⟩
    · exact ⟨"SIGQUIT", rfl, rfl⟩
    · exact ⟨"SIGINT", rfl, rfl⟩
    · exact ⟨"SIGHUP", rfl, rfl⟩
  · intro s hs name hname
    simp only [analyze_exit_status, if_neg hs, hname]

/-- Witness for the amended C1 theorem at concrete statuses. -/
theorem analyze_exit_status_classification_witness :
    analyze_exit_status (.exited 7) = some (.error (.NonZeroExit 7)) ∧
    (∃ name, SIGNAL_NAMES.lookup 15 = some name ∧
      analyze_exit_status (.signaled 15) = some (.error (.ProcessTerminated 15 name))) ∧
    analyze_exit_status (.signaled 9) = some (.error (.ProcessKilled 9 "SIGKILL")) :=
  ⟨analyze_exit_status_classification.2.1 7 (by decide),
   analyze_exit_status_classification.2.2.1 15 (by decide),
   analyze_exit_status_classification.2.2.2 9 (by decide) "SIGKILL" rfl⟩

/-- C9: every signal in `TERM_SIGNALS` has an entry in the
`SIGNAL_NAMES` table, so on the termination branch the name lookup
succeeds and the unwrap is unreachable: classification returns the
`ProcessTerminated` error rather than panicking. -/
theorem term_signals_named (s : Int) (hs : s ∈ TERM_SIGNALS) :
    ∃ name, SIGNAL_NAMES.lookup s = some name ∧
      analyze_exit_status (.signaled s) = some (.error (.ProcessTerminated s name)) := by
  simp only [TERM_SIGNALS, List.mem_cons, List.not_mem_nil, or_false] at hs
  rcases hs with rfl | rfl | rfl | rfl
  · exact ⟨"SIGTERM", rfl, rfl⟩
  · exact ⟨"SIGQUIT", rfl, rfl⟩
  · exact ⟨"SIGINT", rfl, rfl⟩
  · exact ⟨"SIGHUP", rfl, rfl⟩

/-- Witness for C9 at signal 3 (`SIGQUIT`). -/
theorem term_signals_named_witness :
    ∃ name, SIGNAL_NAMES.lookup 3 = some name ∧
      analyze_exit_status (.signaled 3) = some (.error (.ProcessTerminated 3 name)) :=
  term_signals_named 3 (by decide)

/-- C2 (code bug, evaluated at the failing input): with one pending
stdout line `"a"`, an exhausted stderr stream whose end-of-stream is
ready at the first race, and a child that exits cleanly, the drain
loop of `exhaust_output_streams_and_wait` terminates immediately —
`future::or` polls the stderr side first, its `None` resolves the
merged future — delivering no line at all, leaving `"a"` undelivered,
and then waits on the child and reports success. -/
theorem exhaust_output_streams_drops_ready_stdout_line :
    exhaust_output_streams_and_wait ["a"] [] [.errFirst] (.exited 0)
      = some ([], (["a"], []), some (.ok ())) := rfl

/-- C3: whenever the next pending stdout line and the next pending
stderr line are both simultaneously ready, the stderr line is
delivered (the stdout line stays pending at the head of its stream, so
it can only be delivered later); moreover the merge never reorders
lines within a single stream: the delivered stdout texts and stderr
texts are always initial segments of their respective sequences. -/
theorem merge_streams_stderr_precedence :
    (∀ (o : String) (outs : List String) (e : String) (errs : List String),
      merge_streams (o :: outs) (e :: errs) .both = some (.err e, o :: outs, errs)) ∧
    (∀ (o : String) (outs : List String) (e : String) (errs : List String) (rs : List Race),
      (drain (o :: outs) (e :: errs) (.both :: rs)).1.head? = some (.err e)) ∧
    (∀ (outs errs : List String) (rs : List Race), ∃ k j,
      outTexts (drain outs errs rs).1 = outs.take k ∧
      errTexts (drain outs errs rs).1 = errs.take j) := by
  refine ⟨fun o outs e errs => rfl, fun o outs e errs rs => rfl,
    fun outs errs rs => drain_take rs outs errs⟩

/-- C4 (counterexample): on a `CommandSpec` whose old executable is
empty (the `::default()` spec with argv `["a"]`), unshifting the
non-empty executable `"sh"` leaves the argv at `["a"]` rather than
producing `[old Executable] ++ [old ArgumentVector] = ["", "a"]`: the
old executable is only prepended when it is non-empty. -/
theorem unshift_new_exe_skips_empty_old_exe :
    (Command.unshift_new_exe ⟨"", none, ["a"], []⟩ "sh").map Command.argv
      ≠ some ("" :: "a" :: []) := by decide

/-- C4 (amended): unshifting an empty new executable panics; for a
non-empty new executable the resulting spec's executable is the new
one, and its argv is `[old Executable] ++ [old ArgumentVector]` when
the old executable is non-empty but the unchanged old argv when the
old executable is empty. -/
theorem unshift_new_exe_spec (c : Command) (new_exe : String) :
    (new_exe = "" → c.unshift_new_exe new_exe = none) ∧
    (new_exe ≠ "" → c.exe ≠ "" →
      c.unshift_new_exe new_exe = some { c with exe := new_exe, argv := c.exe :: c.argv }) ∧
    (new_exe ≠ "" → c.exe = "" →
      c.unshift_new_exe new_exe = some { c with exe := new_exe }) := by
  refine ⟨?_, ?_, ?_⟩
  · intro h
    simp [Command.unshift_new_exe, exeIsEmpty, h]
  · intro h1 h2
    simp [Command.unshift_new_exe, exeIsEmpty, h1, h2, Argv.unshift]
  · intro h1 h2
    simp [Command.unshift_new_exe, exeIsEmpty, h1, h2]

/-- Witness for the amended C4 theorem at concrete specs. -/
theorem unshift_new_exe_spec_witness :
    Command.unshift_new_exe ⟨"exe1", none, ["a"], []⟩ "sh"
      = some ⟨"sh", none, ["exe1", "a"], []⟩ ∧
    Command.unshift_new_exe ⟨"exe1", none, ["a"], []⟩ "" = none :=
  ⟨(unshift_new_exe_spec ⟨"exe1", none, ["a"], []⟩ "sh").2.1 (by decide) (by decide),
   (unshift_new_exe_spec ⟨"exe1", none, ["a"], []⟩ "").1 rfl⟩

/-- C7: converting a `CommandSpec` to a native invocation descriptor
reaches the fatal contract-violation branch exactly when the
executable is empty; for a non-empty executable it returns the
descriptor carrying the program path, the working directory when
present, the argument vector, and each environment-overlay entry as an
individual override on the inherited environment. -/
theorem command_fatal_iff_empty_exe (c : Command) :
    (c.command = none ↔ c.exe = "") ∧
    (c.exe ≠ "" →
      c.command = some { program := c.exe, cwd := c.wd, args := c.argv, envSets := c.env }) := by
  constructor
  · constructor
    · intro h
      by_contra he
      simp [Command.command, exeIsEmpty, he] at h
    · intro h
      simp [Command.command, exeIsEmpty, h]
  · intro h
    simp [Command.command, exeIsEmpty, h]

/-- Witness for C7 at concrete specs. -/
theorem command_fatal_iff_empty_exe_witness :
    Command.command ⟨"echo", some "/tmp", ["hey"], [("K", "V")]⟩
      = some ⟨"echo", some "/tmp", ["hey"], [("K", "V")]⟩ ∧
    Command.command ⟨"", none, ["x"], []⟩ = none :=
  ⟨(command_fatal_iff_empty_exe ⟨"echo", some "/tmp", ["hey"], [("K", "V")]⟩).2 (by decide),
   (command_fatal_iff_empty_exe ⟨"", none, ["x"], []⟩).1.mpr rfl⟩

/-- C10: for a shell-script invocation whose script path is non-empty,
`setup_command` always returns `Ok` (no `SetupError` is ever
constructed on this path, and neither unshift panics), and the
resulting command executes `sh` with the script path placed at the
front of the base command's argument vector by the double unshift (the
base executable, when non-empty, follows the script path). -/
theorem setup_command_always_ok (inv : ShellScriptInvocation)
    (h : inv.script.script_path ≠ "") :
    inv.setup_command = some (.ok
      { exe := "sh", wd := inv.base.wd,
        argv := inv.script.script_path ::
          (if inv.base.exe = "" then inv.base.argv else inv.base.exe :: inv.base.argv),
        env := inv.base.env }) := by
  obtain ⟨⟨sp⟩, base⟩ := inv
  simp only at h ⊢
  by_cases hb : base.exe = "" <;>
    simp [ShellScriptInvocation.setup_command, Command.unshift_shell_script,
      Command.unshift_new_exe, exeIsEmpty, Argv.unshift, h, hb]

/-- Witness for C10 at a concrete invocation. -/
theorem setup_command_always_ok_witness :
    ShellScriptInvocation.setup_command ⟨⟨"scriptX"⟩, ⟨"baseExe", none, ["a"], []⟩⟩
      = some (.ok ⟨"sh", none, ["scriptX", "baseExe", "a"], []⟩) :=
  setup_command_always_ok ⟨⟨"scriptX"⟩, ⟨"baseExe", none, ["a"], []⟩⟩ (by decide)

/-- C6: whenever the exit status of a synchronous run classifies as a
failure `e`, `RawOutput::extract` returns the error value whose
`error` field is exactly `e`, whose `command` field is the original
spec, and whose context is some diagnostic string — for every pair of
captured stdout/stderr buffers, UTF-8-decodable or not, so buffer
decodability can only influence the context string, never the error
kind. -/
theorem extract_wraps_classifier_error (command : Command) (output : ProcessOutput)
    (e : CommandError) (h : analyze_exit_status output.status = some (.error e)) :
    ∃ ctx, RawOutput.extract command output
      = some (.error { command := command, context := ctx, error := e }) := by
  unfold RawOutput.extract
  rw [h]
  exact ⟨_, rfl⟩

/-- Witness for C6: a run exiting with code 1, once with buffers that
are not valid UTF-8 and once with buffers that are. -/
theorem extract_wraps_classifier_error_witness :
    (∃ ctx, RawOutput.extract ⟨"x", none, [], []⟩ ⟨.exited 1, [104], [255]⟩
      = some (.error { command := ⟨"x", none, [], []⟩, context := ctx,
                       error := .NonZeroExit 1 })) ∧
    (∃ ctx, RawOutput.extract ⟨"x", none, [], []⟩ ⟨.exited 1, [104], [105]⟩
      = some (.error { command := ⟨"x", none, [], []⟩, context := ctx,
                       error := .NonZeroExit 1 })) :=
  ⟨extract_wraps_classifier_error ⟨"x", none, [], []⟩ ⟨.exited 1, [104], [255]⟩
      (.NonZeroExit 1) rfl,
   extract_wraps_classifier_error ⟨"x", none, [], []⟩ ⟨.exited 1, [104], [105]⟩
      (.NonZeroExit 1) rfl⟩

/-- Updating an existing key in place rebinds it: looking the key up
after the map-update finds the new value. -/
theorem lookup_map_update (k v : List Char) (m : List (List Char × List Char))
    (h : m.any (fun p => p.1 = k)) :
    (m.map (fun p => if p.1 = k then (k, v) else p)).lookup k = some v := by
  induction m with
  | nil => simp at h
  | cons p rest ih =>
    obtain ⟨pk, pv⟩ := p
    by_cases hp : pk = k
    · subst hp
      have hhead : (fun p : List Char × List Char => if p.1 = pk then (pk, v) else p) (pk, pv)
          = (pk, v) := by simp
      simp only [List.map_cons, hhead]
      simp [List.lookup]
    · have hb : (k == pk) = false := by
        simp [beq_iff_eq]
        exact Ne.symm hp
      have hrest : rest.any (fun p => p.1 = k) := by simpa [hp] using h
      simp only [List.map_cons, hp, if_false, ite_false]
      simp [List.lookup, hb, ih hrest]

/-- Appending a fresh key binds it: looking it up finds the appended
value. -/
theorem lookup_append_fresh (k v : List Char) (m : List (List Char × List Char))
    (h : ¬ m.any (fun p => p.1 = k)) :
    (m ++ [(k, v)]).lookup k = some v := by
  induction m with
  | nil => simp [List.lookup]
  | cons p rest ih =>
    obtain ⟨pk, pv⟩ := p
    have hp : pk ≠ k := by
      intro he
      exact h (by simp [he])
    have hrest : ¬ rest.any (fun p => p.1 = k) := by
      intro hr
      exact h (by simp [hr])
    have hb : (k == pk) = false := by
      simp [beq_iff_eq]
      exact Ne.symm hp
    simp only [List.cons_append]
    simp [List.lookup, hb, ih hrest]

/-- After an IndexMap-style insert, the inserted key is bound to the
inserted value (a later duplicate overwrites the earlier entry). -/
theorem lookup_indexMapInsert (m : List (List Char × List Char)) (k v : List Char) :
    (indexMapInsert m k v).lookup k = some v := by
  unfold indexMapInsert
  split_ifs with h
  · exact lookup_map_update k v m h
  · exact lookup_append_fresh k v m h

/-- For a line containing `=`, the key/value split is at the first
occurrence: the key contains no `=` and the line is exactly
`key ++ '=' :: value`. -/
theorem envLine_split (line : List Char) (h : '=' ∈ line) :
    '=' ∉ envLineKey line ∧ envLineKey line ++ '=' :: envLineValue line = line := by
  induction line with
  | nil => simp at h
  | cons c rest ih =>
    by_cases hc : c = '='
    · subst hc
      refine ⟨?_, ?_⟩
      · simp [envLineKey, List.takeWhile_cons]
      · simp [envLineKey, envLineValue, List.takeWhile_cons]
    · have hrest : '=' ∈ rest := by
        rcases List.mem_cons.mp h with he | hm
        · exact absurd he.symm hc
        · exact hm
      obtain ⟨ih1, ih2⟩ := ih hrest
      have hkey : envLineKey (c :: rest) = c :: envLineKey rest := by
        simp [envLineKey, List.takeWhile_cons, hc]
      have hvalue : envLineValue (c :: rest) = envLineValue rest := by
        unfold envLineValue
        rw [hkey, List.length_cons, List.drop_succ_cons]
      refine ⟨?_, ?_⟩
      · rw [hkey]
        intro hm
        rcases List.mem_cons.mp hm with he | hm2
        · exact hc he.symm
        · exact ih1 hm2
      · rw [hkey, hvalue, List.cons_append, ih2]

/-- C5: env-dump parsing handles one more line as specified: a line
with no `=` contributes nothing to the overlay; a line with `=` is
split at the first occurrence (the key has no `=`, and
`key ++ "=" ++ value` reassembles the line) and inserted; and an
insert rebinds a duplicate key to the new value, so a later duplicate
overwrites the earlier entry. -/
theorem extract_env_bindings_spec (lines : List (List Char)) (line : List Char) :
    ('=' ∉ line → extract_env_bindings (lines ++ [line]) = extract_env_bindings lines) ∧
    ('=' ∈ line →
      extract_env_bindings (lines ++ [line])
        = indexMapInsert (extract_env_bindings lines) (envLineKey line) (envLineValue line) ∧
      '=' ∉ envLineKey line ∧
      envLineKey line ++ '=' :: envLineValue line = line) ∧
    (∀ (m : List (List Char × List Char)) (k v : List Char),
      (indexMapInsert m k v).lookup k = some v) := by
  refine ⟨?_, ?_, fun m k v => lookup_indexMapInsert m k v⟩
  · intro h
    simp [extract_env_bindings, List.foldl_append, extractEnvStep, h]
  · intro h
    exact ⟨by simp [extract_env_bindings, List.foldl_append, extractEnvStep, h],
           (envLine_split line h).1, (envLine_split line h).2⟩

/-- Witness for C5 at concrete lines: `"B"` (no `=`) is skipped,
`"A=1=2"` splits at the first `=`, and re-inserting key `"A"`
overwrites its value. -/
theorem extract_env_bindings_spec_witness :
    (extract_env_bindings ([['A', '=', '1']] ++ [['B']])
      = extract_env_bindings [['A', '=', '1']]) ∧
    (extract_env_bindings ([] ++ [['A', '=', '1', '=', '2']])
      = indexMapInsert (extract_env_bindings []) (envLineKey ['A', '=', '1', '=', '2'])
          (envLineValue ['A', '=', '1', '=', '2'])) ∧
    ((indexMapInsert [(['A'], ['1'])] ['A'] ['2']).lookup ['A'] = some ['2']) :=
  ⟨(extract_env_bindings_spec [['A', '=', '1']] ['B']).1 (by decide),
   ((extract_env_bindings_spec [] ['A', '=', '1', '=', '2']).2.1 (by decide)).1,
   (extract_env_bindings_spec [] []).2.2 [(['A'], ['1'])] ['A'] ['2']⟩

/-- The function `Char.ofNat` inverts `Char.toNat`. -/
theorem char_ofNat_toNat (c : Char) : Char.ofNat c.toNat = c := by
  have h : c.toNat.isValidChar := c.valid
  apply Char.eq_of_val_eq
  apply UInt32.eq_of_toBitVec_eq
  apply BitVec.eq_of_toNat_eq
  unfold Char.ofNat
  rw [dif_pos h]
  rfl

/-- Single-scalar round trip: decoding the encoding of a valid Unicode
scalar value consumes exactly its bytes and returns the value. -/
theorem utf8DecodeChar_encodeNat (n : Nat)
    (hv : n < 0xd800 ∨ (0xdfff < n ∧ n < 0x110000)) (t : List Nat) :
    utf8DecodeChar (utf8EncodeNat n ++ t) = some (n, t) := by
  unfold utf8EncodeNat
  by_cases h1 : n < 0x80
  · rw [if_pos h1]
    simp only [List.cons_append, List.nil_append, utf8DecodeChar]
    rw [if_pos h1]
  · rw [if_neg h1]
    by_cases h2 : n < 0x800
    · rw [if_pos h2]
      simp only [List.cons_append, List.nil_append, utf8DecodeChar]
      rw [if_neg (by omega), if_neg (by omega), if_pos (by omega)]
      simp only [utf8Decode2]
      rw [if_pos (by omega)]
      have hval : (0xC0 + n / 64 - 0xC0) * 64 + (0x80 + n % 64 - 0x80) = n := by omega
      rw [hval]
    · rw [if_neg h2]
      by_cases h3 : n < 0x10000
      · rw [if_pos h3]
        simp only [List.cons_append, List.nil_append, utf8DecodeChar]
        rw [if_neg (by omega), if_neg (by omega), if_neg (by omega), if_pos (by omega)]
        simp only [utf8Decode3]
        have hlo : utf8SecondLo (0xE0 + n / 4096) ≤ 0x80 + n / 64 % 64 := by
          unfold utf8SecondLo
          split_ifs with hE hF
          · omega
          · omega
          · omega
        have hhi : 0x80 + n / 64 % 64 ≤ utf8SecondHi (0xE0 + n / 4096) := by
          unfold utf8SecondHi
          split_ifs with hE hF
          · omega
          · omega
          · omega
        rw [if_pos ⟨hlo, hhi, by omega, by omega⟩]
        have hval : (0xE0 + n / 4096 - 0xE0) * 4096 + (0x80 + n / 64 % 64 - 0x80) * 64
            + (0x80 + n % 64 - 0x80) = n := by omega
        rw [hval]
      · rw [if_neg h3]
        simp only [List.cons_append, List.nil_append, utf8DecodeChar]
        rw [if_neg (by omega), if_neg (by omega), if_neg (by omega), if_neg (by omega),
          if_pos (by omega)]
        simp only [utf8Decode4]
        have hlo : utf8SecondLo (0xF0 + n / 262144) ≤ 0x80 + n / 4096 % 64 := by
          unfold utf8SecondLo
          split_ifs with hE hF
          · omega
          · omega
          · omega
        have hhi : 0x80 + n / 4096 % 64 ≤ utf8SecondHi (0xF0 + n / 262144) := by
          unfold utf8SecondHi
          split_ifs with hE hF
          · omega
          · omega
          · omega
        rw [if_pos ⟨hlo, hhi, by omega, by omega, by omega, by omega⟩]
        have hval : (0xF0 + n / 262144 - 0xF0) * 262144 + (0x80 + n / 4096 % 64 - 0x80) * 4096
            + (0x80 + n / 64 % 64 - 0x80) * 64 + (0x80 + n % 64 - 0x80) = n := by omega
        rw [hval]

/-- A character's UTF-8 encoding is never empty. -/
theorem utf8EncodeChar_ne_nil (c : Char) : utf8EncodeChar c ≠ [] := by
  unfold utf8EncodeChar utf8EncodeNat
  split_ifs <;> simp

/-- Single-character round trip. -/
theorem utf8DecodeChar_encodeChar (c : Char) (t : List Nat) :
    utf8DecodeChar (utf8EncodeChar c ++ t) = some (c.toNat, t) :=
  utf8DecodeChar_encodeNat c.toNat c.valid t

/-- The decoding loop inverts string encoding, given enough fuel. -/
theorem utf8DecodeAux_encode (s : List Char) :
    ∀ fuel : Nat, (utf8Encode s).length ≤ fuel →
      utf8DecodeAux fuel (utf8Encode s) = some s := by
  induction s with
  | nil =>
    intro fuel _
    cases fuel <;> rfl
  | cons c s ih =>
    intro fuel hf
    have henc : utf8Encode (c :: s) = utf8EncodeChar c ++ utf8Encode s := by
      simp [utf8Encode]
    rw [henc] at hf ⊢
    obtain ⟨b, bs, hcb⟩ : ∃ b bs, utf8EncodeChar c = b :: bs := by
      cases hE : utf8EncodeChar c with
      | nil => exact absurd hE (utf8EncodeChar_ne_nil c)
      | cons b bs => exact ⟨b, bs, rfl⟩
    rw [hcb, List.cons_append] at hf ⊢
    cases fuel with
    | zero => simp at hf
    | succ fuel =>
      simp only [utf8DecodeAux]
      have hdec : utf8DecodeChar (b :: (bs ++ utf8Encode s)) = some (c.toNat, utf8Encode s) := by
        rw [← List.cons_append, ← hcb]
        exact utf8DecodeChar_encodeChar c (utf8Encode s)
      rw [hdec]
      have hlen : (utf8Encode s).length ≤ fuel := by
        simp only [List.length_cons, List.length_append] at hf
        omega
      simp [ih fuel hlen, char_ofNat_toNat]

/-- The function `from_utf8` inverts `utf8Encode`. -/
theorem from_utf8_encode (s : List Char) : from_utf8 (utf8Encode s) = some s :=
  utf8DecodeAux_encode s (utf8Encode s).length (Nat.le_refl _)

/-- C8: on a `RawOutput` whose stdout and stderr buffers are the UTF-8
encodings of texts `s` and `t`, `decode` succeeds and returns exactly
`s` and `t`: the encode-then-decode round trip preserves the original
text. -/
theorem decode_roundtrip (s t : List Char) (command : Command) :
    RawOutput.decode ⟨utf8Encode s, utf8Encode t⟩ command = .ok ⟨s, t⟩ := by
  simp only [RawOutput.decode, from_utf8_encode]

end SuperProcess
